import Mathlib

/-!
Verification of the multi-agent message-pipeline repository
(`src/agents/*.py`, `src/utils/*.py`) against its natural-language
specification.  Each Python function relevant to the spec's claims is
shallowly embedded as an executable Lean definition; Python floats are
modelled as rationals, Python dicts as insertion-ordered association
lists, and fallible code as `Except String`.
-/

namespace Bajaj

/-- Python's `needle in hay` substring test on character lists. -/
def containsChars (hay needle : List Char) : Bool :=
  hay.tails.any (fun t => needle.isPrefixOf t)

/-- Python's `s.lower()` (as a character list). -/
def lowerData (s : String) : List Char := s.data.map Char.toLower

/-- Python's case-sensitive `needle in hay` on strings. -/
def strContains (hay needle : String) : Bool :=
  containsChars hay.data needle.data

/-- Python's `round` to the nearest integer, ties to even (banker's
rounding), on rationals. -/
def roundHalfEven (q : ℚ) : ℤ :=
  let f : ℤ := ⌊q⌋
  let frac : ℚ := q - f
  if frac < 1/2 then f
  else if 1/2 < frac then f + 1
  else if f % 2 = 0 then f else f + 1

/-- Python's `round(x, 1)`. -/
def round1 (q : ℚ) : ℚ := (roundHalfEven (q * 10) : ℚ) / 10

/-- Python's `round(x, 2)`. -/
def round2 (q : ℚ) : ℚ := (roundHalfEven (q * 100) : ℚ) / 100

/-- Python dict assignment `d[k] = v` on an insertion-ordered
association list: an existing key keeps its position and gets the new
value, a new key is appended at the end. -/
def dinsert {V : Type} (k : String) (v : V) : List (String × V) → List (String × V)
  | [] => [(k, v)]
  | (k', v') :: rest => if k' = k then (k, v) :: rest else (k', v') :: dinsert k v rest

/-- Python dict lookup `d.get(k)`. -/
def dlookup {V : Type} (k : String) (l : List (String × V)) : Option V :=
  (l.find? (fun p => p.1 = k)).map (·.2)

theorem dinsert_map_fst_of_mem {V : Type} {k : String} (v : V) :
    ∀ l : List (String × V), k ∈ l.map Prod.fst →
      (dinsert k v l).map Prod.fst = l.map Prod.fst := by
  intro l
  induction l with
  | nil => intro h; simp at h
  | cons p rest ih =>
    intro h
    by_cases hk : p.1 = k
    · simp [dinsert, hk]
    · have hmem : k ∈ rest.map Prod.fst := by
        simp only [List.map_cons, List.mem_cons] at h
        rcases h with h | h
        · exact absurd h.symm hk
        · exact h
      simp [dinsert, hk, ih hmem]

theorem dinsert_map_fst_of_not_mem {V : Type} {k : String} (v : V) :
    ∀ l : List (String × V), k ∉ l.map Prod.fst →
      (dinsert k v l).map Prod.fst = l.map Prod.fst ++ [k] := by
  intro l
  induction l with
  | nil => intro _; simp [dinsert]
  | cons p rest ih =>
    intro h
    have hk : p.1 ≠ k := by
      intro hc; exact h (by simp [hc])
    have hmem : k ∉ rest.map Prod.fst := by
      intro hc; exact h (by simp [hc])
    simp [dinsert, hk, ih hmem]

theorem dlookup_dinsert {V : Type} (k : String) (v : V) (l : List (String × V)) :
    dlookup k (dinsert k v l) = some v := by
  induction l with
  | nil => simp [dinsert, dlookup, List.find?]
  | cons p rest ih =>
    by_cases hk : p.1 = k
    · simp [dinsert, hk, dlookup, List.find?]
    · simpa [dinsert, hk, dlookup, List.find?] using ih

/-! ## Compliance agent (`src/agents/compliance_agent.py`)

A violation is a dict; only its `severity` value (absent ⇒ `none`)
matters for scoring.  A generated message carries an optional
`message_id` and a `content` string.  The regex patterns in
`base_compliance_rules` are alternations of literal strings, so
`re.search(p, s, re.IGNORECASE)` is "some alternative occurs in
`s.toLower`". -/

structure Violation where
  vtype : String
  severity : Option String
  description : String
deriving DecidableEq

structure Msg where
  messageId : Option Int
  content : String
deriving DecidableEq

/-- Count of violations whose `severity` equals `s`
(`len([v for v in vs if v.get('severity') == s])`). -/
def cntSev (s : String) (vs : List Violation) : ℤ :=
  (vs.filter (fun v => v.severity = some s)).length

/-- One entry of `base_compliance_rules`: a pattern (alternation of
lowercase literals), a severity and a rule name. -/
structure CRule where
  pats : List String
  severity : String
  rule : String

def financialRules : List CRule :=
  [⟨["guaranteed", "promise", "100%"], "HIGH", "No absolute guarantees"⟩,
   ⟨["click here", "act now", "urgent"], "MEDIUM", "Avoid high-pressure language"⟩,
   ⟨["free money", "instant cash"], "HIGH", "No misleading financial claims"⟩]

def healthcareRules : List CRule :=
  [⟨["cure", "guaranteed healing", "miracle"], "HIGH", "No medical claims"⟩,
   ⟨["personal health info"], "HIGH", "HIPAA compliance required"⟩,
   ⟨["diagnose", "treatment guarantee"], "HIGH", "No medical advice"⟩]

def generalRules : List CRule :=
  [⟨["winner", "you\x27ve won", "congratulations"], "MEDIUM", "Avoid spam-like language"⟩,
   ⟨["limited time", "expires soon", "hurry"], "LOW", "Moderate urgency language"⟩]

/-- Rule-set selection in `_apply_rule_based_checks` (lines 147-154). -/
def ruleSetFor (scenario : String) : String × List CRule :=
  if strContains scenario "insurance" || strContains scenario "financial" then
    ("financial_services", financialRules)
  else if strContains scenario "health" then ("healthcare", healthcareRules)
  else ("general", generalRules)

/-- `re.search(rule['pattern'], message_content, re.IGNORECASE)`. -/
def ruleMatches (r : CRule) (content : String) : Bool :=
  r.pats.any (fun p => containsChars (lowerData content) p.data)

/-- The message sources consumed by the compliance agent:
`previous_results.copywriter.data.messages` (empty list when any link
of the chain is absent) and `input_data.messages`. -/
structure ComplianceInput where
  prevCopyMessages : List Msg
  messages : List Msg

/-- Lines 157-159 / 256-258: use the copywriter messages, falling back
to `input_data['messages']` when they are empty/absent. -/
def resolveMessages (i : ComplianceInput) : List Msg :=
  if i.prevCopyMessages = [] then i.messages else i.prevCopyMessages

/-- One element of the LLM's `message_analyses` list. -/
structure MessageAnalysisIn where
  messageId : Option Int
  complianceScore : Option ℚ
  violations : List Violation
  riskLevel : Option String

/-- The LLM compliance payload as read by `_apply_rule_based_checks`. -/
structure ComplianceLLM where
  overallCompliance : Option ℚ
  messageAnalyses : List MessageAnalysisIn

/-- One element of the enhanced `message_analyses` produced by
`_apply_rule_based_checks`. -/
structure EnhancedAnalysis where
  messageId : Option Int
  complianceScore : ℤ
  violations : List Violation
  ruleChecksApplied : ℤ
  riskLevel : String
deriving DecidableEq

structure ComplianceOut where
  messageAnalyses : List EnhancedAnalysis
  overallCompliance : ℚ
  ruleSetApplied : String
  totalRuleViolations : ℤ

/-- Lines 167-171: find the content of the message whose
`message_id` equals the analysis's (Python `==` on possibly-absent
values, i.e. equality of `Option`s); default `""`. -/
def findContent (messages : List Msg) (mid : Option Int) : String :=
  match messages.find? (fun m => m.messageId = mid) with
  | some m => m.content
  | none => ""

/-- Lines 163-204 of `_apply_rule_based_checks`: merge rule-based
violations into one LLM message analysis and recompute its score and
risk level. -/
def enhanceOne (rules : List CRule) (messages : List Msg) (a : MessageAnalysisIn) :
    EnhancedAnalysis :=
  let content := findContent messages a.messageId
  let ruleViolations :=
    (rules.filter (fun r => ruleMatches r content)).map
      (fun r => Violation.mk "rule_based_check" (some r.severity) r.rule)
  let allViolations := a.violations ++ ruleViolations
  let h := cntSev "HIGH" allViolations
  let m := cntSev "MEDIUM" allViolations
  let l := cntSev "LOW" allViolations
  { messageId := a.messageId
    complianceScore := max 0 (100 - h * 25 - m * 10 - l * 5)
    violations := allViolations
    ruleChecksApplied := ruleViolations.length
    riskLevel := if 0 < h then "HIGH" else if 0 < m then "MEDIUM" else "LOW" }

/-- `_apply_rule_based_checks` (lines 143-218). -/
def applyRuleBasedChecks (llm : ComplianceLLM) (inp : ComplianceInput)
    (scenario : String) : ComplianceOut :=
  let rs := ruleSetFor scenario
  let messages := resolveMessages inp
  let enhanced := llm.messageAnalyses.map (enhanceOne rs.2 messages)
  let overall : ℚ :=
    if enhanced = [] then llm.overallCompliance.getD 50
    else (enhanced.map (fun a => (a.complianceScore : ℚ))).sum / enhanced.length
  { messageAnalyses := enhanced
    overallCompliance := round1 overall
    ruleSetApplied := rs.1
    totalRuleViolations := (enhanced.map (·.ruleChecksApplied)).sum }

/-- One element of the fallback `message_analyses`. -/
structure FallbackAnalysis where
  messageId : Int
  complianceScore : ℤ
  violations : List Violation
  riskLevel : String
deriving DecidableEq

structure FallbackComplianceOut where
  overallCompliance : ℚ
  messageAnalyses : List FallbackAnalysis
  analysisMethod : String

/-- Lines 262-291 of `_fallback_compliance_analysis`: the per-message
loop body (`i` is the 0-based enumeration index). -/
def fallbackCheckOne (i : ℕ) (m : Msg) : FallbackAnalysis :=
  let c := lowerData m.content
  let vs1 : List Violation :=
    if containsChars c "guaranteed".data || containsChars c "promise".data
        || containsChars c "100%".data then
      [⟨"absolute_claims", some "HIGH", "Contains absolute guarantees"⟩]
    else []
  let vs2 : List Violation :=
    if containsChars c "click here".data || containsChars c "act now".data
        || containsChars c "urgent".data then
      [⟨"high_pressure", some "MEDIUM", "High-pressure language detected"⟩]
    else []
  let violations := vs1 ++ vs2
  { messageId := m.messageId.getD (i + 1)
    complianceScore :=
      max 0 (100 - cntSev "HIGH" violations * 30 - cntSev "MEDIUM" violations * 15)
    violations := violations
    riskLevel :=
      if violations.any (fun v => v.severity = some "HIGH") then "HIGH"
      else if violations = [] then "LOW" else "MEDIUM" }

def fallbackCheckAll (i : ℕ) : List Msg → List FallbackAnalysis
  | [] => []
  | m :: rest => fallbackCheckOne i m :: fallbackCheckAll (i + 1) rest

/-- `_fallback_compliance_analysis` (lines 252-301). -/
def fallbackComplianceAnalysis (inp : ComplianceInput) : FallbackComplianceOut :=
  let analyses := fallbackCheckAll 0 (resolveMessages inp)
  let overall : ℚ :=
    if analyses = [] then 0
    else (analyses.map (fun a => (a.complianceScore : ℚ))).sum / analyses.length
  { overallCompliance := round1 overall
    messageAnalyses := analyses
    analysisMethod := "fallback_rule_based" }

/-- The per-message score formula asserted by the specification:
`max(0, 100 − 25·H − 10·M − 5·L)` over a violation list. -/
def specScoreFormula (vs : List Violation) : ℤ :=
  max 0 (100 - cntSev "HIGH" vs * 25 - cntSev "MEDIUM" vs * 10 - cntSev "LOW" vs * 5)

/-- C2 (counterexample).  The claim asserts that the fallback path also
scores messages as `max(0, 100 − 25·H − 10·M − 5·L)`.  It does not: on
the single message `"guaranteed offer"` the fallback records one HIGH
violation and the score `70 = 100 − 30`, while the claimed formula
yields `75 = 100 − 25`. -/
theorem compliance_fallback_score_counterexample :
    (fallbackComplianceAnalysis ⟨[], [⟨some 1, "guaranteed offer"⟩]⟩).messageAnalyses.map
        (fun a => a.complianceScore) = [70] ∧
    (fallbackComplianceAnalysis ⟨[], [⟨some 1, "guaranteed offer"⟩]⟩).messageAnalyses.map
        (fun a => specScoreFormula a.violations) = [75] ∧
    (70 : ℤ) ≠ 75 := by
  refine ⟨by decide, by decide, by decide⟩

/-- C2 (amended).  On the LLM-parsed path every message's
`compliance_score` equals `max(0, 100 − 25·H − 10·M − 5·L)` over its
merged (model-reported plus rule-based) violation list and
`overall_compliance` is the per-message mean rounded to one decimal
place (the LLM's own overall, rounded, when there are no analyses); on
the fallback path every score equals `max(0, 100 − 30·H − 15·M)` over
the violations of the two keyword rules and `overall_compliance` is the
rounded mean (`0` when there are no messages). -/
theorem compliance_scores_recomputed (llm : ComplianceLLM) (inp : ComplianceInput)
    (scenario : String) :
    (∀ a ∈ (applyRuleBasedChecks llm inp scenario).messageAnalyses,
        a.complianceScore = specScoreFormula a.violations) ∧
    ((applyRuleBasedChecks llm inp scenario).messageAnalyses ≠ [] →
      (applyRuleBasedChecks llm inp scenario).overallCompliance =
        round1 (((applyRuleBasedChecks llm inp scenario).messageAnalyses.map
            (fun a => (a.complianceScore : ℚ))).sum /
          (applyRuleBasedChecks llm inp scenario).messageAnalyses.length)) ∧
    (∀ a ∈ (fallbackComplianceAnalysis inp).messageAnalyses,
        a.complianceScore =
          max 0 (100 - cntSev "HIGH" a.violations * 30 - cntSev "MEDIUM" a.violations * 15)) ∧
    ((fallbackComplianceAnalysis inp).messageAnalyses ≠ [] →
      (fallbackComplianceAnalysis inp).overallCompliance =
        round1 (((fallbackComplianceAnalysis inp).messageAnalyses.map
            (fun a => (a.complianceScore : ℚ))).sum /
          (fallbackComplianceAnalysis inp).messageAnalyses.length)) := by
  refine ⟨?_, ?_, ?_, ?_⟩
  · intro a ha
    simp only [applyRuleBasedChecks, List.mem_map] at ha
    obtain ⟨x, -, rfl⟩ := ha
    simp [enhanceOne, specScoreFormula, mul_comm]
  · intro hne
    simp only [applyRuleBasedChecks] at hne ⊢
    rw [if_neg hne]
  · intro a ha
    simp only [fallbackComplianceAnalysis] at ha
    generalize 0 = i at ha
    generalize resolveMessages inp = ms at ha
    induction ms generalizing i with
    | nil => simp [fallbackCheckAll] at ha
    | cons m rest ih =>
      simp only [fallbackCheckAll, List.mem_cons] at ha
      rcases ha with rfl | ha
      · simp [fallbackCheckOne, mul_comm]
      · exact ih _ ha
  · intro hne
    simp only [fallbackComplianceAnalysis] at hne ⊢
    rw [if_neg hne]

/-- Example LLM payload for the witness of `compliance_scores_recomputed`. -/
def c2llm : ComplianceLLM := ⟨some 90, [⟨some 1, some 90, [], some "LOW"⟩]⟩

/-- Example input for the witness of `compliance_scores_recomputed`. -/
def c2inp : ComplianceInput := ⟨[⟨some 1, "act now and save"⟩], []⟩

/-- Witness for `compliance_scores_recomputed`: the theorem evaluated
on a one-message, one-analysis input for the `insurance_renewal`
scenario. -/
theorem compliance_scores_recomputed_witness :
    ((applyRuleBasedChecks c2llm c2inp "insurance_renewal").messageAnalyses.getD 0
        ⟨none, 0, [], 0, ""⟩).complianceScore =
      specScoreFormula
        (((applyRuleBasedChecks c2llm c2inp "insurance_renewal").messageAnalyses.getD 0
          ⟨none, 0, [], 0, ""⟩).violations) ∧
    (applyRuleBasedChecks c2llm c2inp "insurance_renewal").overallCompliance =
      round1 (((applyRuleBasedChecks c2llm c2inp "insurance_renewal").messageAnalyses.map
            (fun a => (a.complianceScore : ℚ))).sum /
        (applyRuleBasedChecks c2llm c2inp "insurance_renewal").messageAnalyses.length) := by
  refine ⟨(compliance_scores_recomputed c2llm c2inp "insurance_renewal").1 _ (by decide),
    (compliance_scores_recomputed c2llm c2inp "insurance_renewal").2.1 (by decide)⟩

/-! ## Decision agent (`src/agents/decision_agent.py`)

`_calculate_message_ranking` (lines 235-296) and
`_calculate_decision_confidence` (lines 498-534).  Python's
`list.sort(key=..., reverse=True)` is a stable descending sort, which
is exactly `List.insertionSort` with the relation
"`b.compositeScore ≤ a.compositeScore`". -/

/-- The scenario-specific decision criteria weight table
(`self.decision_weights`, lines 10-41), looked up with the `default`
entry as fallback. -/
structure Weights where
  complianceScore : ℚ
  customerSentiment : ℚ
  actionLikelihood : ℚ
  clarity : ℚ

def weightsFor (scenario : String) : Weights :=
  if scenario = "insurance_renewal" then ⟨4/10, 3/10, 2/10, 1/10⟩
  else if scenario = "healthcare_reminder" then ⟨5/10, 2/10, 2/10, 1/10⟩
  else if scenario = "loan_reminder" then ⟨45/100, 25/100, 2/10, 1/10⟩
  else if scenario = "ecommerce_promotion" then ⟨3/10, 25/100, 35/100, 1/10⟩
  else ⟨35/100, 3/10, 25/100, 1/10⟩

/-- One (possibly falsy) element of the compliance `message_analyses`
list; `none` models a falsy entry, skipped by the loop's `continue`. -/
structure CompEntry where
  messageId : Option Int
  complianceScore : Option ℚ
deriving DecidableEq

/-- One element of the feedback `message_feedback` list. -/
structure FbEntry where
  messageId : Option Int
  sentimentScore : Option ℚ
  actionLikelihood : Option ℚ
  clarityScore : Option ℚ
deriving DecidableEq

structure ComplianceData where
  messageAnalyses : List (Option CompEntry)

structure FeedbackData where
  messageFeedback : List (Option FbEntry)

/-- `feedback_lookup[f['message_id']] = f` on an `Int`-keyed dict. -/
def finsert (k : Int) (v : FbEntry) : List (Int × FbEntry) → List (Int × FbEntry)
  | [] => [(k, v)]
  | (k', v') :: rest => if k' = k then (k, v) :: rest else (k', v') :: finsert k v rest

/-- Lines 249-253 / building of `feedback_lookup`: keep entries that
are truthy and have a `message_id`; later entries overwrite earlier
ones. -/
def buildFeedbackLookup (l : List (Option FbEntry)) : List (Int × FbEntry) :=
  l.foldl
    (fun acc f =>
      match f with
      | none => acc
      | some fb =>
        match fb.messageId with
        | none => acc
        | some k => finsert k fb acc)
    []

def flookup (k : Int) (l : List (Int × FbEntry)) : Option FbEntry :=
  (l.find? (fun p => p.1 = k)).map (·.2)

structure ComponentScores where
  compliance : ℚ
  sentiment : ℚ
  action : ℚ
  clarity : ℚ
deriving DecidableEq

/-- One ranking entry before the `rank` key is added. -/
structure RankEntry where
  messageId : Int
  compositeScore : ℚ
  componentScores : ComponentScores
deriving DecidableEq

/-- A ranking entry after `ranking['rank'] = i + 1` (lines 293-294). -/
structure RankedEntry where
  entry : RankEntry
  rank : ℕ
deriving DecidableEq

/-- Lines 258-287: score one truthy compliance analysis. -/
def scoreOne (w : Weights) (lookup : List (Int × FbEntry)) (a : CompEntry) : RankEntry :=
  let messageId := a.messageId.getD 0
  let feedback := flookup messageId lookup
  let complianceScore := a.complianceScore.getD 0 / 100
  let sentimentScore := (feedback.bind (fun f => f.sentimentScore)).getD 5 / 10
  let actionScore := (feedback.bind (fun f => f.actionLikelihood)).getD 5 / 10
  let clarityScore := (feedback.bind (fun f => f.clarityScore)).getD 5 / 10
  let compositeScore :=
    (complianceScore * w.complianceScore + sentimentScore * w.customerSentiment +
      actionScore * w.actionLikelihood + clarityScore * w.clarity) * 100
  { messageId := messageId
    compositeScore := round1 compositeScore
    componentScores :=
      ⟨round1 (complianceScore * 100), round1 (sentimentScore * 10),
       round1 (actionScore * 10), round1 (clarityScore * 10)⟩ }

/-- The sort relation of `rankings.sort(key=lambda x: x['composite_score'],
reverse=True)`: `a` may precede `b` iff `b`'s score is not larger. -/
def geScore (a b : RankEntry) : Prop := b.compositeScore ≤ a.compositeScore

instance : DecidableRel geScore :=
  fun a b => inferInstanceAs (Decidable (b.compositeScore ≤ a.compositeScore))

instance : IsTotal RankEntry geScore :=
  ⟨fun a b => le_total b.compositeScore a.compositeScore⟩

instance : IsTrans RankEntry geScore :=
  ⟨fun _ _ _ hab hbc => le_trans hbc hab⟩

/-- Lines 292-294: `for i, ranking in enumerate(rankings):
ranking['rank'] = i + 1` (`addRanks 1 _`). -/
def addRanks : ℕ → List RankEntry → List RankedEntry
  | _, [] => []
  | i, e :: rest => ⟨e, i⟩ :: addRanks (i + 1) rest

/-- The truthy entries of `message_analyses` (the loop skips falsy
entries with `continue`). -/
def validAnalyses (c : ComplianceData) : List CompEntry :=
  c.messageAnalyses.filterMap id

/-- The scored, not yet sorted ranking list built by the loop of
lines 255-287. -/
def scoredEntries (c : ComplianceData) (f : FeedbackData) (scenario : String) :
    List RankEntry :=
  (validAnalyses c).map
    (scoreOne (weightsFor scenario) (buildFeedbackLookup f.messageFeedback))

/-- `_calculate_message_ranking` (lines 235-296). -/
def calculateMessageRanking (c : ComplianceData) (f : FeedbackData)
    (scenario : String) : List RankedEntry :=
  if c.messageAnalyses = [] then []
  else addRanks 1 (List.insertionSort geScore (scoredEntries c f scenario))

theorem addRanks_map_entry : ∀ (i : ℕ) (l : List RankEntry),
    (addRanks i l).map RankedEntry.entry = l := by
  intro i l
  induction l generalizing i with
  | nil => simp [addRanks]
  | cons e rest ih => simp [addRanks, ih]

theorem addRanks_map_rank : ∀ (i : ℕ) (l : List RankEntry),
    (addRanks i l).map RankedEntry.rank = List.range' i l.length := by
  intro i l
  induction l generalizing i with
  | nil => simp [addRanks]
  | cons e rest ih => simp [addRanks, ih, List.range']

theorem filter_addRanks (q : ℚ) : ∀ (i : ℕ) (l : List RankEntry),
    ((addRanks i l).filter (fun x => decide (x.entry.compositeScore = q))).map
        RankedEntry.entry =
      l.filter (fun e => decide (e.compositeScore = q)) := by
  intro i l
  induction l generalizing i with
  | nil => simp [addRanks]
  | cons e rest ih =>
    simp only [addRanks, List.filter]
    by_cases hp : e.compositeScore = q <;> simp [hp, ih]

theorem filter_orderedInsert (q : ℚ) (x : RankEntry) : ∀ l : List RankEntry,
    (List.orderedInsert geScore x l).filter (fun e => decide (e.compositeScore = q)) =
      if x.compositeScore = q then
        x :: l.filter (fun e => decide (e.compositeScore = q))
      else l.filter (fun e => decide (e.compositeScore = q)) := by
  intro l
  induction l with
  | nil =>
    by_cases hx : x.compositeScore = q <;> simp [List.orderedInsert, hx]
  | cons b l ih =>
    by_cases hgb : geScore x b
    · by_cases hx : x.compositeScore = q <;>
        simp [List.orderedInsert, hgb, List.filter, hx]
    · have hxb : b.compositeScore = q → x.compositeScore = q → False := by
        intro hb hx
        exact hgb (by simp [geScore, hb, hx])
      by_cases hx : x.compositeScore = q
      · have hb : ¬ b.compositeScore = q := fun hb => hxb hb hx
        simp [List.orderedInsert, hgb, List.filter, hb, hx, ih]
      · by_cases hb : b.compositeScore = q <;>
          simp [List.orderedInsert, hgb, List.filter, hb, hx, ih]

theorem filter_insertionSort (q : ℚ) : ∀ l : List RankEntry,
    (List.insertionSort geScore l).filter (fun e => decide (e.compositeScore = q)) =
      l.filter (fun e => decide (e.compositeScore = q)) := by
  intro l
  induction l with
  | nil => rfl
  | cons x l ih =>
    simp only [List.insertionSort, filter_orderedInsert, ih]
    by_cases hx : x.compositeScore = q <;> simp [List.filter, hx]

/-- C6.  The fallback ranking of the decision agent: the entries are in
(stable) descending composite-score order, the multiset of ranked
message ids is exactly the multiset of ids of the truthy compliance
analyses (each appears exactly once), and the ranks are `1..n` in sort
order.  Stability: for every score value, the ranked entries carrying
that score appear in the same order as in the scored input list. -/
theorem decision_ranking_sorted_complete (c : ComplianceData) (f : FeedbackData)
    (scenario : String) :
    (calculateMessageRanking c f scenario).Pairwise
        (fun a b => b.entry.compositeScore ≤ a.entry.compositeScore) ∧
    ((calculateMessageRanking c f scenario).map (fun x => x.entry.messageId)).Perm
        ((validAnalyses c).map (fun a => a.messageId.getD 0)) ∧
    (calculateMessageRanking c f scenario).map RankedEntry.rank =
      List.range' 1 (validAnalyses c).length ∧
    ∀ q : ℚ,
      ((calculateMessageRanking c f scenario).filter
          (fun x => decide (x.entry.compositeScore = q))).map RankedEntry.entry =
        (scoredEntries c f scenario).filter (fun e => decide (e.compositeScore = q)) := by
  by_cases hc : c.messageAnalyses = []
  · have hv : validAnalyses c = [] := by simp [validAnalyses, hc]
    have hs : scoredEntries c f scenario = [] := by simp [scoredEntries, hv]
    refine ⟨?_, ?_, ?_, ?_⟩ <;> simp [calculateMessageRanking, hc, hv, hs]
  · have hR : calculateMessageRanking c f scenario =
        addRanks 1 (List.insertionSort geScore (scoredEntries c f scenario)) := by
      simp [calculateMessageRanking, hc]
    have hmap : (calculateMessageRanking c f scenario).map RankedEntry.entry =
        List.insertionSort geScore (scoredEntries c f scenario) := by
      rw [hR, addRanks_map_entry]
    refine ⟨?_, ?_, ?_, ?_⟩
    · have hsorted : (List.insertionSort geScore (scoredEntries c f scenario)).Pairwise
          geScore := List.sorted_insertionSort geScore _
      rw [← hmap] at hsorted
      exact (List.pairwise_map).mp hsorted
    · have hperm : (List.insertionSort geScore (scoredEntries c f scenario)).Perm
          (scoredEntries c f scenario) := List.perm_insertionSort geScore _
      have h1 : ((calculateMessageRanking c f scenario).map RankedEntry.entry).map
            RankEntry.messageId =
          (calculateMessageRanking c f scenario).map (fun x => x.entry.messageId) := by
        simp [List.map_map, Function.comp]
      have h2 := hperm.map RankEntry.messageId
      rw [← hmap, h1] at h2
      refine h2.trans ?_
      have : (scoredEntries c f scenario).map RankEntry.messageId =
          (validAnalyses c).map (fun a => a.messageId.getD 0) := by
        simp [scoredEntries, List.map_map, Function.comp, scoreOne]
      rw [this]
    · rw [hR, addRanks_map_rank]
      have : (List.insertionSort geScore (scoredEntries c f scenario)).length =
          (validAnalyses c).length := by
        rw [(List.perm_insertionSort geScore _).length_eq]
        simp [scoredEntries]
      rw [this]
    · intro q
      rw [hR, filter_addRanks, filter_insertionSort]

/-- Upstream stage presence/success: `none` models an agent key absent
from `previous_results`; `some b` a present result whose
`.get('success', False)` is `b`. -/
structure PrevResults where
  copywriter : Option Bool
  compliance : Option Bool
  feedback : Option Bool

/-- `'x' in previous_results and previous_results['x'].get('success',
False)`, as the 0/1 summand of the data-quality factor. -/
def presentAndTrue (o : Option Bool) : ℚ := if o.getD false then 1 else 0

/-- The slice of the (enhanced) decision payload consumed by
`_calculate_decision_confidence`. -/
structure DecisionConfData where
  ranking : List RankedEntry
  riskAssessment : Option String
  confidence : Option ℚ

/-- `_calculate_decision_confidence` (lines 498-534).  Faithful to the
source, including its defect: in the `len(ranking) >= 2` branch the
code executes `top_score = ranking.get('composite_score', 0)` (line
516) on a *list*, which unconditionally raises `AttributeError` (and
line 517 would index `ranking[31]`); the embedded function therefore
returns that exception on this branch. -/
def calculateDecisionConfidence (d : DecisionConfData) (prev : PrevResults) :
    Except String ℚ :=
  let dataQuality : ℚ :=
    (presentAndTrue prev.compliance + presentAndTrue prev.feedback +
      presentAndTrue prev.copywriter) / 3
  if 2 ≤ d.ranking.length then
    Except.error "AttributeError: \x27list\x27 object has no attribute \x27get\x27"
  else
    let consistency : ℚ := 1/2
    let risk := d.riskAssessment.getD "MEDIUM"
    let riskFactor : ℚ := if risk = "LOW" then 1 else if risk = "MEDIUM" then 7/10 else 3/10
    let llmConfidence := d.confidence.getD (1/2)
    Except.ok (round2 ((dataQuality + consistency + riskFactor + llmConfidence) / 4))

instance : DecidableEq (Except String ℚ)
  | .ok a, .ok b => decidable_of_iff (a = b) (by simp)
  | .ok _, .error _ => isFalse (by simp)
  | .error _, .ok _ => isFalse (by simp)
  | .error a, .error b => decidable_of_iff (a = b) (by simp)

/-- C1.  The claim states that `decision_confidence` is always the
unweighted mean of the four factors, with the ranking-separation factor
computed from the top-two score gap when the ranking has at least 2
entries.  The code instead raises `AttributeError` on every ranking of
length ≥ 2 (`ranking.get(...)` on a list, line 516), so no confidence
value is produced there; with fewer than 2 entries the mean-of-four
formula (separation factor `0.5`) does hold, and a single scored
message receives rank 1. -/
theorem decision_confidence_crashes_on_two_ranked :
    calculateDecisionConfidence
        ⟨[⟨⟨1, 80, ⟨80, 8, 8, 8⟩⟩, 1⟩, ⟨⟨2, 60, ⟨60, 6, 6, 6⟩⟩, 2⟩], some "LOW",
          some (85/100)⟩
        ⟨some true, some true, some true⟩ =
      Except.error "AttributeError: \x27list\x27 object has no attribute \x27get\x27" ∧
    calculateDecisionConfidence ⟨[⟨⟨1, 80, ⟨80, 8, 8, 8⟩⟩, 1⟩], some "MEDIUM", some (8/10)⟩
        ⟨some true, some true, some true⟩ = Except.ok (3/4) ∧
    (calculateMessageRanking ⟨[some ⟨some 1, some 80⟩]⟩ ⟨[]⟩ "insurance_renewal").map
        RankedEntry.rank = [1] := by
  refine ⟨by decide, ?_, by decide⟩
  norm_num [calculateDecisionConfidence, presentAndTrue, round2, roundHalfEven,
    show ¬("MEDIUM" : String) = "LOW" by decide]

/-! ## Base agent (`src/agents/base_agent.py`)

`process_dynamic` (lines 19-104) runs six steps inside one `try`:
adaptation resolution, system/user prompt rendering, the LLM call
(raising when the gateway result has `success=False`), and response
processing.  The step implementations are passed in as fallible
operations (`Except String`), so the embedding quantifies over "an
exception raised anywhere in steps 1-6". -/

/-- The gateway response envelope (`utils/llm_client.py`). -/
structure LLMResp where
  content : String
  totalTokens : ℕ
  modelUsed : String
  success : Bool
  error : String

/-- The six processing steps of one agent invocation; each may raise. -/
structure AgentSteps (Adapt Data : Type) where
  getAdaptations : Except String Adapt
  genSystemPrompt : Adapt → Except String String
  genUserPrompt : Adapt → Except String String
  llmCall : String → String → LLMResp
  processResponse : String → Except String Data

/-- The uniform result envelope built by `process_dynamic`; the
failure envelope has `data`/`model_used` absent and the keys of the
success envelope it lacks are `none`.  `critical` models
`response.get("critical", False)` as read by the workflow engine
(never set by `process_dynamic`). -/
structure AgentResult (Data : Type) where
  success : Bool
  agentName : String
  scenario : String
  data : Option Data
  error : Option String
  processingTime : ℚ
  tokensUsed : ℕ
  modelUsed : Option String
  critical : Bool

/-- One record of the audit log (`utils/audit_logger.py`, lines 8-18);
`adaptationsApplied`/`performanceMetrics` are `none` when the caller
omits them (the `{}` defaults of `log_dynamic_execution`). -/
structure AuditEntry (Input Adapt Data : Type) where
  agentName : String
  scenario : String
  action : String
  inputData : Input
  outputData : AgentResult Data
  adaptationsApplied : Option Adapt
  performanceMetrics : Option (ℚ × ℕ × String)
  success : Bool

/-- The body of the `try` block of `process_dynamic` (lines 23-44):
steps 1-6 in order, converting a gateway `success=False` into a raised
`"LLM call failed: ..."` exception (lines 40-41). -/
def tryBlock {Adapt Data : Type} (steps : AgentSteps Adapt Data) :
    Except String (Adapt × Data × LLMResp) :=
  match steps.getAdaptations with
  | .error e => .error e
  | .ok adaptations =>
    match steps.genSystemPrompt adaptations with
    | .error e => .error e
    | .ok systemPrompt =>
      match steps.genUserPrompt adaptations with
      | .error e => .error e
      | .ok userPrompt =>
        let llmResponse := steps.llmCall systemPrompt userPrompt
        if llmResponse.success = false then
          .error ("LLM call failed: " ++ llmResponse.error)
        else
          match steps.processResponse llmResponse.content with
          | .error e => .error e
          | .ok processedData => .ok (adaptations, processedData, llmResponse)

/-- `process_dynamic` (lines 19-104): run the `try` block, assemble
the success or failure envelope, and append one audit-log entry.
`t1`/`t2` are the wall-clock readings at entry and at envelope
construction (`datetime.now()`), so `t2 - t1` is `processing_time`. -/
def processDynamic {Input Adapt Data : Type} (name scenario : String)
    (steps : AgentSteps Adapt Data) (input : Input) (t1 t2 : ℚ)
    (log : List (AuditEntry Input Adapt Data)) :
    AgentResult Data × List (AuditEntry Input Adapt Data) :=
  match tryBlock steps with
  | .ok (adaptations, processedData, llmResponse) =>
    let result : AgentResult Data :=
      ⟨true, name, scenario, some processedData, none, t2 - t1,
        llmResponse.totalTokens, some llmResponse.modelUsed, false⟩
    (result,
      log ++ [⟨name, scenario, "dynamic_processing", input, result, some adaptations,
        some (t2 - t1, llmResponse.totalTokens, llmResponse.modelUsed), true⟩])
  | .error e =>
    let result : AgentResult Data :=
      ⟨false, name, scenario, none, some e, t2 - t1, 0, none, false⟩
    (result,
      log ++ [⟨name, scenario, "dynamic_processing", input, result, none, none, false⟩])

/-- C3.  If any of steps 1-6 raises, `process_dynamic` returns (never
raises) a `success=false` envelope carrying the exception message and
zero token usage, and still appends a `success=false` audit entry; and
a gateway reply with `success=false` is one such exception, with
message `"LLM call failed: <error>"`. -/
theorem process_error_envelope {Input Adapt Data : Type} (name scenario : String)
    (steps : AgentSteps Adapt Data) (input : Input) (t1 t2 : ℚ)
    (log : List (AuditEntry Input Adapt Data)) :
    (∀ e : String, tryBlock steps = Except.error e →
      (processDynamic name scenario steps input t1 t2 log).1.success = false ∧
      (processDynamic name scenario steps input t1 t2 log).1.error = some e ∧
      (processDynamic name scenario steps input t1 t2 log).1.tokensUsed = 0 ∧
      (processDynamic name scenario steps input t1 t2 log).2 =
        log ++ [⟨name, scenario, "dynamic_processing", input,
          (processDynamic name scenario steps input t1 t2 log).1, none, none, false⟩]) ∧
    (∀ (adaptations : Adapt) (systemPrompt userPrompt : String),
      steps.getAdaptations = Except.ok adaptations →
      steps.genSystemPrompt adaptations = Except.ok systemPrompt →
      steps.genUserPrompt adaptations = Except.ok userPrompt →
      (steps.llmCall systemPrompt userPrompt).success = false →
      tryBlock steps =
        Except.error ("LLM call failed: " ++ (steps.llmCall systemPrompt userPrompt).error)) := by
  constructor
  · intro e he
    refine ⟨?_, ?_, ?_, ?_⟩ <;> simp [processDynamic, he]
  · intro adaptations systemPrompt userPrompt h1 h2 h3 h4
    simp [tryBlock, h1, h2, h3, h4]

/-- Steps whose gateway call fails, for the witness of
`process_error_envelope`. -/
def c3steps : AgentSteps Unit Unit :=
  ⟨Except.ok (), fun _ => Except.ok "sys", fun _ => Except.ok "usr",
   fun _ _ => ⟨"", 0, "gpt-4", false, "boom"⟩, fun _ => Except.ok ()⟩

/-- Witness for `process_error_envelope`, on a gateway failure. -/
theorem process_error_envelope_witness :
    (processDynamic "Dynamic Copywriter" "insurance_renewal" c3steps () 0 1 []).1.success
        = false ∧
    (processDynamic "Dynamic Copywriter" "insurance_renewal" c3steps () 0 1 []).1.error =
      some "LLM call failed: boom" ∧
    (processDynamic "Dynamic Copywriter" "insurance_renewal" c3steps () 0 1 []).1.tokensUsed
        = 0 ∧
    (processDynamic "Dynamic Copywriter" "insurance_renewal" c3steps () 0 1 []).2 =
      [] ++ [⟨"Dynamic Copywriter", "insurance_renewal", "dynamic_processing", (),
        (processDynamic "Dynamic Copywriter" "insurance_renewal" c3steps () 0 1 []).1,
        none, none, false⟩] :=
  (process_error_envelope "Dynamic Copywriter" "insurance_renewal" c3steps () 0 1 []).1
    "LLM call failed: boom" rfl

/-- C5.  Every invocation of `process_dynamic` — success or failure —
appends exactly one audit entry, recording the invocation's input,
its full output envelope, its agent, scenario, action and success
flag; all previously stored entries are preserved unchanged. -/
theorem process_appends_one_audit_entry {Input Adapt Data : Type} (name scenario : String)
    (steps : AgentSteps Adapt Data) (input : Input) (t1 t2 : ℚ)
    (log : List (AuditEntry Input Adapt Data)) :
    ∃ entry : AuditEntry Input Adapt Data,
      (processDynamic name scenario steps input t1 t2 log).2 = log ++ [entry] ∧
      entry.success = (processDynamic name scenario steps input t1 t2 log).1.success ∧
      entry.inputData = input ∧
      entry.outputData = (processDynamic name scenario steps input t1 t2 log).1 ∧
      entry.agentName = name ∧ entry.scenario = scenario ∧
      entry.action = "dynamic_processing" := by
  cases h : tryBlock steps with
  | ok v =>
    obtain ⟨a, d, r⟩ := v
    exact ⟨⟨name, scenario, "dynamic_processing", input,
      ⟨true, name, scenario, some d, none, t2 - t1, r.totalTokens, some r.modelUsed, false⟩,
      some a, some (t2 - t1, r.totalTokens, r.modelUsed), true⟩,
      by simp [processDynamic, h], by simp [processDynamic, h], rfl,
      by simp [processDynamic, h], rfl, rfl, rfl⟩
  | error e =>
    exact ⟨⟨name, scenario, "dynamic_processing", input,
      ⟨false, name, scenario, none, some e, t2 - t1, 0, none, false⟩, none, none, false⟩,
      by simp [processDynamic, h], by simp [processDynamic, h], rfl,
      by simp [processDynamic, h], rfl, rfl, rfl⟩

/-! ## System-prompt rendering (`base_agent.py`, lines 116-138)

`_generate_dynamic_system_prompt` runs `template.format(**vars)` and,
on `KeyError`, returns
`template.replace("{<missing key>}", "N/A")` — substituting nothing
else.  Templates (see `config/agent_configs.py`) are sequences of
literal text (brace-free) and named slots. -/

inductive TemplatePart where
  | lit (s : String)
  | slot (name : String)
deriving DecidableEq

/-- A system-prompt template with named substitution slots. -/
def Template := List TemplatePart

/-- The substitution variable set (`template_vars`). -/
def lookupVar (vars : List (String × String)) (n : String) : Option String :=
  (vars.find? (fun p => p.1 = n)).map (·.2)

/-- `template.format(**vars)`: renders left to right; raises `KeyError`
carrying the first slot name absent from `vars`. -/
def pyFormat (vars : List (String × String)) : Template → Except String String
  | [] => Except.ok ""
  | TemplatePart.lit s :: rest => (pyFormat vars rest).map (s ++ ·)
  | TemplatePart.slot n :: rest =>
    match lookupVar vars n with
    | some v => (pyFormat vars rest).map (v ++ ·)
    | none => Except.error n

/-- `template.replace("{k}", "N/A")` on the raw template text: every
occurrence of slot `k` becomes `"N/A"`, every other slot stays as the
literal text `{name}`. -/
def renderWithNA (k : String) : Template → String
  | [] => ""
  | TemplatePart.lit s :: rest => s ++ renderWithNA k rest
  | TemplatePart.slot n :: rest =>
    (if n = k then "N/A" else "\x7b" ++ n ++ "\x7d") ++ renderWithNA k rest

/-- `_generate_dynamic_system_prompt` lines 134-138: `format`, falling
back on `KeyError e` to `template.replace(f"{{{e.args[0]}}}",
str(template_vars.get(e.args[0], "N/A")))` — the missing key is absent
from `template_vars`, so the replacement text is always `"N/A"`. -/
def generateDynamicSystemPrompt (t : Template) (vars : List (String × String)) : String :=
  match pyFormat vars t with
  | Except.ok s => s
  | Except.error k => renderWithNA k t

/-- The slot names of a template, in template order. -/
def slotNames : Template → List String
  | [] => []
  | TemplatePart.lit _ :: rest => slotNames rest
  | TemplatePart.slot n :: rest => n :: slotNames rest

/-- The first slot (in template order) absent from the variable set —
the key Python's `KeyError` reports. -/
def firstMissing (t : Template) (vars : List (String × String)) : Option String :=
  (slotNames t).find? (fun n => (lookupVar vars n).isNone)

/-- Full substitution of a template from a variable set (the intended
render; the `getD` branch is unreachable when no slot is missing). -/
def renderFull (vars : List (String × String)) : Template → String
  | [] => ""
  | TemplatePart.lit s :: rest => s ++ renderFull vars rest
  | TemplatePart.slot n :: rest => (lookupVar vars n).getD "N/A" ++ renderFull vars rest

theorem pyFormat_ok_of_no_missing (vars : List (String × String)) : ∀ t : Template,
    firstMissing t vars = none → pyFormat vars t = Except.ok (renderFull vars t) := by
  intro t
  induction t with
  | nil => intro _; rfl
  | cons p rest ih =>
    intro h
    cases p with
    | lit s =>
      have h' : firstMissing rest vars = none := h
      simp [pyFormat, Except.map, renderFull, ih h']
    | slot n =>
      cases hl : lookupVar vars n with
      | none =>
        exfalso
        simp [firstMissing, slotNames, List.find?, hl] at h
      | some v =>
        have h' : firstMissing rest vars = none := by
          simpa [firstMissing, slotNames, List.find?, hl] using h
        simp [pyFormat, Except.map, renderFull, hl, ih h']

theorem pyFormat_error_of_missing (vars : List (String × String)) : ∀ t : Template,
    ∀ k : String, firstMissing t vars = some k → pyFormat vars t = Except.error k := by
  intro t
  induction t with
  | nil => intro k h; simp [firstMissing, slotNames, List.find?] at h
  | cons p rest ih =>
    intro k h
    cases p with
    | lit s =>
      have h' : firstMissing rest vars = some k := h
      simp [pyFormat, Except.map, ih k h']
    | slot n =>
      cases hl : lookupVar vars n with
      | none =>
        have hk : n = k := by
          simpa [firstMissing, slotNames, List.find?, hl] using h
        subst hk
        simp [pyFormat, hl]
      | some v =>
        have h' : firstMissing rest vars = some k := by
          simpa [firstMissing, slotNames, List.find?, hl] using h
        simp [pyFormat, Except.map, hl, ih k h']

/-- C4 (counterexample).  The claim asserts every present slot is
substituted and every absent slot becomes `"N/A"` in the same render.
With the template `{audience} via {channel}` and only `audience`
bound, the render leaves `{audience}` unsubstituted (only the first
missing key, `channel`, is replaced). -/
theorem systemPrompt_render_counterexample :
    generateDynamicSystemPrompt
        [TemplatePart.slot "audience", TemplatePart.lit " via ", TemplatePart.slot "channel"]
        [("audience", "policy holders")] = "\x7baudience\x7d via N/A" ∧
    "\x7baudience\x7d via N/A" ≠ "policy holders via N/A" := by
  refine ⟨by decide, by decide⟩

/-- C4 (amended).  The render never raises.  When every slot of the
template is bound, each slot is substituted with its value.  When some
slot is missing, the render returns the raw template text with every
occurrence of the *first* missing slot (in template order) replaced by
`"N/A"`; all other slots — bound or not — are left as literal
`{name}` text. -/
theorem systemPrompt_render_amended (t : Template) (vars : List (String × String)) :
    (firstMissing t vars = none → generateDynamicSystemPrompt t vars = renderFull vars t) ∧
    (∀ k : String, firstMissing t vars = some k →
      generateDynamicSystemPrompt t vars = renderWithNA k t) := by
  constructor
  · intro h
    simp [generateDynamicSystemPrompt, pyFormat_ok_of_no_missing vars t h]
  · intro k h
    simp [generateDynamicSystemPrompt, pyFormat_error_of_missing vars t k h]

/-- Witness for `systemPrompt_render_amended`: a fully-bound render
and a render with a missing slot. -/
theorem systemPrompt_render_amended_witness :
    generateDynamicSystemPrompt
        [TemplatePart.lit "CHANNEL: ", TemplatePart.slot "channel"] [("channel", "SMS")] =
      renderFull [("channel", "SMS")]
        [TemplatePart.lit "CHANNEL: ", TemplatePart.slot "channel"] ∧
    generateDynamicSystemPrompt
        [TemplatePart.lit "CHANNEL: ", TemplatePart.slot "channel"] [] =
      renderWithNA "channel" [TemplatePart.lit "CHANNEL: ", TemplatePart.slot "channel"] :=
  ⟨(systemPrompt_render_amended
      [TemplatePart.lit "CHANNEL: ", TemplatePart.slot "channel"] [("channel", "SMS")]).1
      (by decide),
   (systemPrompt_render_amended
      [TemplatePart.lit "CHANNEL: ", TemplatePart.slot "channel"] []).2 "channel" (by decide)⟩

/-! ## Copywriter fallback parsing (`src/agents/copywriter_agent.py`, lines 125-174)

`_fallback_message_parsing` splits the raw reply into lines, groups
non-brace lines into message candidates on keyword/number cues, then
pads the list up to 3 synthetic messages.  Strings are processed as
character lists with structural recursion (`List Char` mirrors the
Python `str` operations exactly). -/

/-- One parsed message of the fallback path. -/
structure FMsg where
  messageId : ℕ
  content : List Char
  features : List String
  scenarioAlignment : String
deriving DecidableEq

/-- Python's `str.strip()` on a character list. -/
def trimChars (s : List Char) : List Char :=
  ((s.dropWhile Char.isWhitespace).reverse.dropWhile Char.isWhitespace).reverse

/-- Python's `content.split('\n')`. -/
def splitLines (s : List Char) : List (List Char) :=
  s.foldr
    (fun c acc =>
      match acc with
      | [] => if c = '\n' then [[], []] else [[c]]
      | cur :: done => if c = '\n' then [] :: cur :: done else (c :: cur) :: done)
    [[]]

/-- Message appended inside the line loop (lines 137-142 / 149-155). -/
def mkParsed (scenario : String) (n : ℕ) (content : List Char) : FMsg :=
  ⟨n, trimChars content, ["fallback_parsed"], "Fallback parsed for " ++ scenario⟩

/-- Synthetic message of the padding loop (lines 158-164). -/
def mkAuto (scenario : String) (n : ℕ) : FMsg :=
  ⟨n, ("Generated message " ++ toString n ++ " for " ++ scenario).data,
   ["auto_generated"], "Auto-generated for " ++ scenario⟩

/-- `any(keyword in line.lower() for keyword in ['message', 'option',
str(message_id)])`. -/
def hasKeywordCue (line : List Char) (mid : ℕ) : Bool :=
  ["message".data, "option".data, Nat.toDigits 10 mid].any
    (fun kw => containsChars (line.map Char.toLower) kw)

/-- The line loop of `_fallback_message_parsing` (lines 132-146),
carrying `message_id`, `current_message` and the accumulated list;
returns the messages and the final `current_message`. -/
def fallbackLoop (scenario : String) :
    List (List Char) → ℕ → List Char → List FMsg → List FMsg × List Char
  | [], _, cur, msgs => (msgs, cur)
  | line :: rest, mid, cur, msgs =>
    let l := trimChars line
    if l ≠ [] ∧ l.head? ≠ some '\x7b' ∧ l.head? ≠ some '[' then
      if hasKeywordCue l mid then
        if cur ≠ [] then
          fallbackLoop scenario rest (mid + 1) []
            (msgs ++ [mkParsed scenario (msgs.length + 1) cur])
        else fallbackLoop scenario rest (mid + 1) cur msgs
      else fallbackLoop scenario rest mid (cur ++ l ++ [' ']) msgs
    else fallbackLoop scenario rest mid cur msgs

/-- The `while len(messages) < 3` padding loop (lines 157-164); three
iterations always suffice, so it is run on fuel 3. -/
def padAux (scenario : String) : ℕ → List FMsg → List FMsg
  | 0, l => l
  | n + 1, l =>
    if 3 ≤ l.length then l
    else padAux scenario n (l ++ [mkAuto scenario (l.length + 1)])

/-- `_fallback_message_parsing` (lines 125-174). -/
structure CopyFallbackOut where
  messages : List FMsg
  totalGenerated : ℕ
  scenario : String
  parsingMethod : String

def fallbackMessageParsing (content : String) (scenario : String) : CopyFallbackOut :=
  let lines := splitLines (trimChars content.data)
  let r := fallbackLoop scenario lines 1 [] []
  let withLast :=
    if r.2 ≠ [] then r.1 ++ [mkParsed scenario (r.1.length + 1) r.2] else r.1
  let msgs := padAux scenario 3 withLast
  ⟨msgs, msgs.length, scenario, "fallback"⟩

theorem fallbackLoop_features (scenario : String) : ∀ (lines : List (List Char))
    (mid : ℕ) (cur : List Char) (msgs : List FMsg),
    (∀ m ∈ msgs, m.features = ["fallback_parsed"]) →
    ∀ m ∈ (fallbackLoop scenario lines mid cur msgs).1, m.features = ["fallback_parsed"] := by
  intro lines
  induction lines with
  | nil => intro mid cur msgs h; exact h
  | cons line rest ih =>
    intro mid cur msgs h
    simp only [fallbackLoop]
    split
    · split
      · split
        · refine ih _ _ _ ?_
          intro m hm
          rcases List.mem_append.mp hm with hm | hm
          · exact h m hm
          · simp only [List.mem_singleton] at hm
            simp [hm, mkParsed]
        · exact ih _ _ _ h
      · exact ih _ _ _ h
    · exact ih _ _ _ h

theorem padAux_length (scenario : String) : ∀ (n : ℕ) (l : List FMsg),
    3 ≤ l.length + n → 3 ≤ (padAux scenario n l).length := by
  intro n
  induction n with
  | zero => intro l h; simpa using h
  | succ n ih =>
    intro l h
    simp only [padAux]
    split
    · assumption
    · refine ih _ ?_
      simp
      omega

theorem padAux_features (scenario : String) : ∀ (n : ℕ) (l : List FMsg),
    (∀ m ∈ l, m.features = ["fallback_parsed"] ∨ m.features = ["auto_generated"]) →
    ∀ m ∈ padAux scenario n l,
      m.features = ["fallback_parsed"] ∨ m.features = ["auto_generated"] := by
  intro n
  induction n with
  | zero => intro l h; exact h
  | succ n ih =>
    intro l h
    simp only [padAux]
    split
    · exact h
    · refine ih _ ?_
      intro m hm
      rcases List.mem_append.mp hm with hm | hm
      · exact h m hm
      · simp only [List.mem_singleton] at hm
        right
        simp [hm, mkAuto]

/-- C9.  On any raw reply (in particular the non-JSON literal
`"not json"`, which `json.loads` rejects and which therefore reaches
`_fallback_message_parsing`), the fallback parser returns at least 3
messages, and every one of them carries exactly the feature
`"fallback_parsed"` (recovered from the text) or `"auto_generated"`
(synthetic padding). -/
theorem copywriter_fallback_min3_tagged (content scenario : String) :
    3 ≤ (fallbackMessageParsing content scenario).messages.length ∧
    ∀ m ∈ (fallbackMessageParsing content scenario).messages,
      m.features = ["fallback_parsed"] ∨ m.features = ["auto_generated"] := by
  constructor
  · refine padAux_length scenario 3 _ ?_
    omega
  · refine padAux_features scenario 3 _ ?_
    intro m hm
    have hloop := fallbackLoop_features scenario
      (splitLines (trimChars content.data)) 1 [] [] (by simp)
    simp only [fallbackMessageParsing] at hm ⊢
    split at hm
    · rcases List.mem_append.mp hm with hm | hm
      · exact Or.inl (hloop m hm)
      · simp only [List.mem_singleton] at hm
        exact Or.inl (by simp [hm, mkParsed])
    · exact Or.inl (hloop m hm)

/-- Witness for `copywriter_fallback_min3_tagged` at the literal
gateway reply `"not json"`. -/
theorem copywriter_fallback_witness :
    3 ≤ (fallbackMessageParsing "not json" "insurance_renewal").messages.length ∧
    (((fallbackMessageParsing "not json" "insurance_renewal").messages.getD 0
        (mkAuto "insurance_renewal" 0)).features = ["fallback_parsed"] ∨
      ((fallbackMessageParsing "not json" "insurance_renewal").messages.getD 0
        (mkAuto "insurance_renewal" 0)).features = ["auto_generated"]) :=
  ⟨(copywriter_fallback_min3_tagged "not json" "insurance_renewal").1,
   (copywriter_fallback_min3_tagged "not json" "insurance_renewal").2 _ (by decide)⟩

/-! ## Workflow engine (`src/utils/workflow_engine.py`)

`execute_dynamic_workflow` iterates the requested sequence; for each
key it records either the agent's envelope, an immediate
"not available" failure, or — when the agent invocation raises — a
caught `{success: False, error, agent_name}` entry, then appends a
`workflow_summary`.  `results` and `workflow_context["agent_results"]`
are insertion-ordered dicts (`dinsert`).  An agent is a function of
the caller input and the accumulated `agent_results` context that
either returns an envelope or raises. -/

structure WorkflowSummary where
  scenario : String
  totalAgents : ℕ
  successfulAgents : ℕ
  totalProcessingTime : ℚ
  sequenceUsed : List String

/-- A value of the heterogeneous `results` dict. -/
inductive WEntry (Data : Type) where
  | agent (r : AgentResult Data)
  | failure (error : String) (agentName : Option String)
  | summary (s : WorkflowSummary)

/-- `r.get("success", False)` over a `results` value (failure entries
and the summary have no truthy `success` key). -/
def wsuccess {Data : Type} : WEntry Data → Bool
  | .agent r => r.success
  | .failure _ _ => false
  | .summary _ => false

/-- An agent behaviour: from the caller's input and the accumulated
`agent_results` context to an envelope, or an exception. -/
def AgentFun (Input Data : Type) : Type :=
  Input → List (String × AgentResult Data) → Except String (AgentResult Data)

/-- The `for agent_name in sequence` loop (lines 28-62), returning the
final `results` dict and `agent_results` context. -/
def execLoop {Input Data : Type} (agents : String → Option (AgentFun Input Data))
    (input : Input) :
    List String → List (String × WEntry Data) → List (String × AgentResult Data) →
      List (String × WEntry Data) × List (String × AgentResult Data)
  | [], results, ctx => (results, ctx)
  | name :: rest, results, ctx =>
    match agents name with
    | none =>
      execLoop agents input rest
        (dinsert name (.failure ("Agent " ++ name ++ " not available") none) results) ctx
    | some f =>
      match f input ctx with
      | .error e =>
        execLoop agents input rest (dinsert name (.failure e (some name)) results) ctx
      | .ok resp =>
        let results' := dinsert name (.agent resp) results
        let ctx' := dinsert name resp ctx
        if resp.success = false ∧ resp.critical = true then (results', ctx')
        else execLoop agents input rest results' ctx'

/-- Line 19, `sequence = agent_sequence or ["copywriter", ...]`:
Python's `or` treats both an omitted and an empty sequence as
falsy, yielding the default order. -/
def resolveSeq (seqOpt : Option (List String)) : List String :=
  match seqOpt with
  | none => ["copywriter", "compliance", "feedback", "decision"]
  | some [] => ["copywriter", "compliance", "feedback", "decision"]
  | some s => s

/-- `execute_dynamic_workflow` (lines 10-73); `t1`/`t2` are the start
and end `datetime.now()` readings. -/
def executeDynamicWorkflow {Input Data : Type}
    (agents : String → Option (AgentFun Input Data)) (scenario : String) (input : Input)
    (seqOpt : Option (List String)) (t1 t2 : ℚ) : List (String × WEntry Data) :=
  let seq := resolveSeq seqOpt
  let r := execLoop agents input seq [] []
  let summary : WorkflowSummary :=
    ⟨scenario, seq.length, (r.1.filter (fun p => wsuccess p.2)).length, t2 - t1, seq⟩
  dinsert "workflow_summary" (.summary summary) r.1

/-- C7.  A run whose requested sequence is a single key `k` returns a
mapping with exactly the keys `k` and `workflow_summary`, and the
summary records the scenario, `total_agents = 1`, the count of
successful entries, the wall-clock duration since start, and the
sequence used.  (The drafting agent is registered under the key
`"copywriter"`; the theorem holds for any single requested key.) -/
theorem workflow_single_agent_run {Input Data : Type}
    (agents : String → Option (AgentFun Input Data)) (scenario : String) (input : Input)
    (k : String) (t1 t2 : ℚ) (hk : k ≠ "workflow_summary") :
    (executeDynamicWorkflow agents scenario input (some [k]) t1 t2).map Prod.fst =
      [k, "workflow_summary"] ∧
    dlookup "workflow_summary" (executeDynamicWorkflow agents scenario input (some [k]) t1 t2) =
      some (WEntry.summary ⟨scenario, 1,
        ((executeDynamicWorkflow agents scenario input (some [k]) t1 t2).filter
            (fun p => wsuccess p.2)).length, t2 - t1, [k]⟩) := by
  have hk' : ¬ (k = "workflow_summary") := hk
  cases hak : agents k with
  | none =>
    constructor <;>
      simp [executeDynamicWorkflow, resolveSeq, execLoop, hak, dinsert, dlookup,
        List.find?, List.filter, wsuccess, hk']
  | some f =>
    cases hres : f input [] with
    | error e =>
      constructor <;>
        simp [executeDynamicWorkflow, resolveSeq, execLoop, hak, hres, dinsert, dlookup,
          List.find?, List.filter, wsuccess, hk']
    | ok resp =>
      by_cases hbrk : resp.success = false ∧ resp.critical = true <;>
        cases hrs : resp.success <;>
        constructor <;>
          simp [executeDynamicWorkflow, resolveSeq, execLoop, hak, hres, hbrk, hrs,
            dinsert, dlookup, List.find?, List.filter, wsuccess, hk']

/-- Witness for `workflow_single_agent_run`: a single-key run against
an engine with no registered agents. -/
theorem workflow_single_agent_run_witness :
    (executeDynamicWorkflow (fun _ => (none : Option (AgentFun Unit Unit)))
        "insurance_renewal" () (some ["copywriter"]) 0 5).map Prod.fst =
      ["copywriter", "workflow_summary"] ∧
    dlookup "workflow_summary"
        (executeDynamicWorkflow (fun _ => (none : Option (AgentFun Unit Unit)))
          "insurance_renewal" () (some ["copywriter"]) 0 5) =
      some (WEntry.summary ⟨"insurance_renewal", 1,
        ((executeDynamicWorkflow (fun _ => (none : Option (AgentFun Unit Unit)))
            "insurance_renewal" () (some ["copywriter"]) 0 5).filter
          (fun p => wsuccess p.2)).length, 5 - 0, ["copywriter"]⟩) :=
  workflow_single_agent_run (fun _ => none) "insurance_renewal" () "copywriter" 0 5
    (by decide)

/-- C8.  Invariant of the agent loop: if the `agent_results` context
keys are a sublist of the already-processed prefix `done` and name
only registered agents, then after running any remaining `seq` they
are a sublist of `done ++ seq` (hence, from the initial empty state, a
subsequence of the requested sequence, in its order) and still name
only registered agents — so unregistered keys, and `workflow_summary`
in particular, are never inserted into `agent_results`. -/
theorem workflow_ctx_keys_sublist {Input Data : Type}
    (agents : String → Option (AgentFun Input Data)) (input : Input) :
    ∀ (seq done : List String) (results : List (String × WEntry Data))
      (ctx : List (String × AgentResult Data)),
      List.Sublist (ctx.map Prod.fst) done →
      (∀ n ∈ ctx.map Prod.fst, (agents n).isSome = true) →
      (List.Sublist ((execLoop agents input seq results ctx).2.map Prod.fst) (done ++ seq) ∧
       ∀ n ∈ (execLoop agents input seq results ctx).2.map Prod.fst,
         (agents n).isSome = true) := by
  intro seq
  induction seq with
  | nil =>
    intro done results ctx h1 h2
    exact ⟨by simpa using h1.trans (List.sublist_append_left done []), h2⟩
  | cons name rest ih =>
    intro done results ctx h1 h2
    have hstep : ∀ results' : List (String × WEntry Data),
        (List.Sublist ((execLoop agents input rest results' ctx).2.map Prod.fst)
            (done ++ name :: rest) ∧
         ∀ n ∈ (execLoop agents input rest results' ctx).2.map Prod.fst,
           (agents n).isSome = true) := by
      intro results'
      have h1' : List.Sublist (ctx.map Prod.fst) (done ++ [name]) :=
        h1.trans (List.sublist_append_left done [name])
      have := ih (done ++ [name]) results' ctx h1' h2
      refine ⟨?_, this.2⟩
      simpa [List.append_assoc] using this.1
    cases hak : agents name with
    | none => simpa [execLoop, hak] using hstep _
    | some f =>
      cases hres : f input ctx with
      | error e => simpa [execLoop, hak, hres] using hstep _
      | ok resp =>
        have hctx1 : List.Sublist ((dinsert name resp ctx).map Prod.fst) (done ++ [name]) := by
          by_cases hmem : name ∈ ctx.map Prod.fst
          · rw [dinsert_map_fst_of_mem resp ctx hmem]
            exact h1.trans (List.sublist_append_left done [name])
          · rw [dinsert_map_fst_of_not_mem resp ctx hmem]
            exact h1.append (List.Sublist.refl [name])
        have hctx2 : ∀ n ∈ (dinsert name resp ctx).map Prod.fst,
            (agents n).isSome = true := by
          intro n hn
          by_cases hmem : name ∈ ctx.map Prod.fst
          · rw [dinsert_map_fst_of_mem resp ctx hmem] at hn
            exact h2 n hn
          · rw [dinsert_map_fst_of_not_mem resp ctx hmem] at hn
            rcases List.mem_append.mp hn with hn | hn
            · exact h2 n hn
            · simp only [List.mem_singleton] at hn
              simp [hn, hak]
        by_cases hbrk : resp.success = false ∧ resp.critical = true
        · refine ⟨?_, ?_⟩ <;> simp only [execLoop, hak, hres, if_pos hbrk]
          · exact hctx1.trans
              (List.Sublist.append_left (by simp [List.cons_sublist_cons]) done)
          · exact hctx2
        · have h1'' : List.Sublist ((dinsert name resp ctx).map Prod.fst) (done ++ [name]) := hctx1
          have := ih (done ++ [name]) (dinsert name (WEntry.agent resp) results)
            (dinsert name resp ctx) h1'' hctx2
          refine ⟨?_, ?_⟩ <;> simp only [execLoop, hak, hres, if_neg hbrk]
          · simpa [List.append_assoc] using this.1
          · exact this.2

/-- Witness for `workflow_ctx_keys_sublist` from the initial empty
state of a run. -/
theorem workflow_ctx_keys_sublist_witness :
    List.Sublist
      ((execLoop (fun _ => (none : Option (AgentFun Unit Unit))) ()
        ["copywriter", "compliance"] [] []).2.map Prod.fst)
      ([] ++ ["copywriter", "compliance"]) :=
  (workflow_ctx_keys_sublist (fun _ => none) () ["copywriter", "compliance"] [] [] []
    (by simp) (by simp)).1

/-- C10.  When a registered agent raises out to the engine, the
exception is caught: the engine records `{success: False, error:
<message>, agent_name}` under that agent's key and continues with the
remaining sequence against an unchanged context (the embedding of
`execute` is total, so no exception ever reaches the caller); and
every run's returned mapping contains a `workflow_summary` entry. -/
theorem workflow_agent_exception_recovered {Input Data : Type}
    (agents : String → Option (AgentFun Input Data)) (input : Input) (name : String)
    (rest : List String) (results : List (String × WEntry Data))
    (ctx : List (String × AgentResult Data)) (f : AgentFun Input Data) (e : String)
    (hf : agents name = some f) (he : f input ctx = Except.error e) :
    execLoop agents input (name :: rest) results ctx =
      execLoop agents input rest
        (dinsert name (WEntry.failure e (some name)) results) ctx ∧
    wsuccess (WEntry.failure e (some name) : WEntry Data) = false ∧
    ∀ (scenario : String) (seqOpt : Option (List String)) (t1 t2 : ℚ),
      ∃ s : WorkflowSummary,
        dlookup "workflow_summary"
            (executeDynamicWorkflow agents scenario input seqOpt t1 t2) =
          some (WEntry.summary s) := by
  refine ⟨by simp [execLoop, hf, he], rfl, ?_⟩
  intro scenario seqOpt t1 t2
  exact ⟨_, dlookup_dinsert _ _ _⟩

/-- Agent map for the witness of `workflow_agent_exception_recovered`:
`compliance` is registered and raises. -/
def c10agents : String → Option (AgentFun Unit Unit) :=
  fun n => if n = "compliance" then some (fun _ _ => Except.error "boom") else none

/-- Witness for `workflow_agent_exception_recovered`. -/
theorem workflow_agent_exception_recovered_witness :
    execLoop c10agents () ["compliance", "feedback"] [] [] =
      execLoop c10agents () ["feedback"]
        (dinsert "compliance" (WEntry.failure "boom" (some "compliance")) []) [] :=
  (workflow_agent_exception_recovered c10agents () "compliance" ["feedback"] [] []
    (fun _ _ => Except.error "boom") "boom" (by simp [c10agents]) rfl).1

end Bajaj
